import Mathlib

/-!
# Watchman core: trigger lifecycle, win32 watcher backend, VCS ignore defaults

A shallow embedding of the change-detection-to-dispatch core of the watchman
daemon, covering:

* `src/cmds/trigger.cpp` — the `trigger`, `trigger-del` command handlers, the
  `watchman_trigger_command` constructor/`stop`/destructor, legacy trigger
  construction and output-redirection parsing;
* `src/watcher/win32.cpp` — the `WinWatcher` read-changes thread loop and the
  `start()` handshake;
* `src/root/vcs.cpp` — `config_get_ignore_vcs` and
  `watchman_root::applyIgnoreVCSConfiguration`.

JSON values are modelled by the inductive `Json`; the jansson `json_equal`
comparison (order-insensitive on objects) is `jsonEqual`.  Stateful handlers
are embedded as pure functions from an explicit root state to an outcome
record that carries the new state, the response, whether a persistence save
happened, and an event trace recording lock acquisition/release, thread
stop/join, thread start, tick advance, and state save, in the order the
C++ code performs them.
-/

/-- JSON value model (jansson `json_t`): null, booleans, integers, strings,
arrays and objects.  Objects are association lists in insertion order;
jansson objects never hold duplicate keys. -/
inductive Json where
  | null : Json
  | bool (b : Bool) : Json
  | int (n : Int) : Json
  | str (s : String) : Json
  | arr (elems : List Json) : Json
  | obj (fields : List (String × Json)) : Json

namespace Json

/-- `json_is_string` -/
def isString : Json → Bool
  | .str _ => true
  | _ => false

/-- `json_is_array` -/
def isArray : Json → Bool
  | .arr _ => true
  | _ => false

/-- `json_array_size` (0 for non-arrays, as in jansson). -/
def arraySize : Json → Nat
  | .arr xs => xs.length
  | _ => 0

/-- First binding of a key in an object field list. -/
def lookupField : List (String × Json) → String → Option Json
  | [], _ => none
  | (k, v) :: rest, key => if k == key then some v else lookupField rest key

/-- `json_object_get` / `json_ref::get_default` without a default: `none`
models the null `json_ref` returned for a missing key or non-object. -/
def get? : Json → String → Option Json
  | .obj fields, key => lookupField fields key
  | _, _ => none

/-- `json_ref::get_default(key, defval)`. -/
def getD (j : Json) (key : String) (defval : Json) : Json :=
  (j.get? key).getD defval

/-- Replace the binding of `key` in a field list, or append it. -/
def setField : List (String × Json) → String → Json → List (String × Json)
  | [], key, v => [(key, v)]
  | (k, w) :: rest, key, v =>
      if k == key then (k, v) :: rest else (k, w) :: setField rest key v

/-- `json_object_set`: on objects, bind `key` to `v`; no-op on non-objects. -/
def setKey (j : Json) (key : String) (v : Json) : Json :=
  match j with
  | .obj fields => .obj (setField fields key v)
  | _ => j

/-- `json_is_true` -/
def isTrue : Json → Bool
  | .bool true => true
  | _ => false

/-- `json_integer_value`: the value for integers, 0 for anything else
(jansson semantics). -/
def integerValue : Json → Int
  | .int n => n
  | _ => 0

/-- `json_string_value` for strings. -/
def stringValue? : Json → Option String
  | .str s => some s
  | _ => none

end Json

mutual
/-- jansson `json_equal`: structural equality that is order-insensitive on
object keys (objects are equal when they have the same number of keys and
every key of the first maps to an equal value in the second). -/
def jsonEqual : Json → Json → Bool
  | .null, .null => true
  | .bool a, .bool b => a == b
  | .int a, .int b => a == b
  | .str a, .str b => a == b
  | .arr xs, .arr ys => jsonListEqual xs ys
  | .obj xs, .obj ys => xs.length == ys.length && jsonObjSub xs ys
  | _, _ => false
termination_by a _ => (sizeOf a, 0)

/-- Pairwise `json_equal` on array elements (jansson compares arrays
element-by-element after a length check; we fuse the length check into the
pairwise walk). -/
def jsonListEqual : List Json → List Json → Bool
  | [], [] => true
  | x :: xs, y :: ys => jsonEqual x y && jsonListEqual xs ys
  | _, _ => false
termination_by xs _ => (sizeOf xs, 0)

/-- Every binding of the first field list maps, under key lookup, to an equal
value in the second (the direction jansson iterates). -/
def jsonObjSub : List (String × Json) → List (String × Json) → Bool
  | [], _ => true
  | (k, v) :: rest, ys => jsonLookupEq k v ys && jsonObjSub rest ys
termination_by xs _ => (sizeOf xs, 0)

/-- Look `k` up in `ys` and compare the found value with `v` via
`json_equal`; `false` when the key is absent. -/
def jsonLookupEq : String → Json → List (String × Json) → Bool
  | _, _, [] => false
  | k, v, (k2, v2) :: ys =>
      if k == k2 then jsonEqual v v2 else jsonLookupEq k v ys
termination_by _ v ys => (sizeOf v + 1, sizeOf ys)
end

/-! ## Output redirection parsing (`parse_redirection`, trigger.cpp:189-222)

The open(2) flag constants, with their values from the Linux headers; only
their identity as distinct bits matters here. -/

def O_WRONLY : Nat := 1
def O_CREAT : Nat := 64
def O_TRUNC : Nat := 512
def O_APPEND : Nat := 1024
def O_CLOEXEC : Nat := 524288

/-- Outcome of `parse_redirection`: on success the residual file name
(`*name_p`) and the flag word (`*flags`); on failure the `errmsg` text.
The C function leaves `*flags` untouched when the name is absent; its only
caller (the `watchman_trigger_command` constructor) initialises the flag
word to 0, which is the value returned here for an absent name. -/
inductive RedirResult where
  | ok (name : Option String) (flags : Nat) : RedirResult
  | error (msg : String) : RedirResult
deriving Repr, DecidableEq

/-- `parse_redirection(name_p, flags, label, errmsg)`.  `windows` selects the
`#ifdef _WIN32` branch in which `>>` (append) is rejected. -/
def parse_redirection (windows : Bool) (label : String) (name : Option String) :
    RedirResult :=
  match name with
  | none => .ok none 0
  | some s =>
    if s.take 1 ≠ ">" then
      .error (label ++ ": must be prefixed with either > or >>, got " ++ s)
    else
      let flags := O_CREAT ||| O_CLOEXEC ||| O_WRONLY
      if (s.drop 1).take 1 = ">" then
        if windows then
          .error "Windows does not support O_APPEND"
        else
          .ok (some (s.drop 2)) (flags ||| O_APPEND)
      else
        .ok (some (s.drop 1)) (flags ||| O_TRUNC)

/-! ## The `watchman_trigger_command` constructor (trigger.cpp:224-329)

The constructor validates a trigger definition document.  The query parser
(`w_query_parse`) and the stdin field-list validator (`parse_field_list`)
are external collaborators outside this core (spec section 1); they are
modelled as accepting their input, so the errors modelled here are exactly
the ones raised by the constructor's own checks. -/

/-- `enum trigger_input_style` -/
inductive TriggerInputStyle where
  | input_dev_null : TriggerInputStyle
  | input_json : TriggerInputStyle
  | input_name_list : TriggerInputStyle
deriving Repr, DecidableEq

open TriggerInputStyle

/-- The execution-thread half of a `watchman_trigger_command`: the
`std::thread` joinable state together with the `stopTrigger_` flag. -/
structure TrigThread where
  joinable : Bool
  stopFlag : Bool
deriving Repr, DecidableEq

/-- A freshly constructed command: no thread spawned, stop flag clear. -/
def TrigThread.initial : TrigThread := ⟨false, false⟩

/-- `watchman_trigger_command::start` (trigger.cpp:349-360): subscribes and
spawns the execution thread, making it joinable. -/
def TrigThread.start (t : TrigThread) : TrigThread := { t with joinable := true }

/-- `watchman_trigger_command::stop` (trigger.cpp:331-337): set
`stopTrigger_`; if the thread is joinable, wake it via the ping event and
join it (after `join()` the thread is no longer joinable). -/
def TrigThread.stop (t : TrigThread) : TrigThread :=
  let t' : TrigThread := { t with stopFlag := true }
  if t'.joinable then { t' with joinable := false } else t'

/-- The fatal check in `~watchman_trigger_command` (trigger.cpp:339-347):
`triggerThread_.joinable() && !stopTrigger_` logs at FATAL severity, which
terminates the process. -/
def destructorIsFatal (t : TrigThread) : Bool := t.joinable && !t.stopFlag

/-- The validated fields of a `watchman_trigger_command` produced by its
constructor. -/
structure TriggerCmdDef where
  definition : Json
  triggername : String
  command : Json
  append_files : Bool
  stdin_style : TriggerInputStyle
  max_files_stdin : Int
  stdout_name : Option String
  stderr_name : Option String
  stdout_flags : Nat
  stderr_flags : Nat

/-- `json_unpack(trig, "\x7bs:s\x7d", key, &name)`: binds the name only when
the key is present and holds a string; otherwise the `char*` stays null. -/
def unpackString (trig : Json) (key : String) : Option String :=
  match trig.get? key with
  | some (.str s) => some s
  | _ => none

/-- The `watchman_trigger_command` constructor (trigger.cpp:224-329),
embedded as a fallible pure function: `.error msg` models the constructor
returning with `*errmsg` set.  `windows` selects the `_WIN32` behaviour of
`parse_redirection`. -/
def mkTriggerCommand (windows : Bool) (trig : Json) : Except String TriggerCmdDef := do
  -- w_query_parse on {expression, relative_root?}: external, modelled as ok
  let name := trig.get? "name"
  let triggername ←
    match name with
    | some (.str s) => pure s
    | _ => throw "invalid or missing name"
  let command := (trig.get? "command").getD .null
  if !command.isArray || command.arraySize == 0 then
    throw "invalid command array"
  let append_files := (trig.getD "append_files" (.bool false)).isTrue
  let stdin_style ←
    match trig.get? "stdin" with
    | none => pure input_dev_null
    | some ele =>
      if ele.isArray then
        -- parse_field_list: external, modelled as ok
        pure input_json
      else
        match ele with
        | .str s =>
          if s == "/dev/null" then pure input_dev_null
          else if s == "NAME_PER_LINE" then pure input_name_list
          else throw ("invalid stdin value " ++ s)
        | _ => throw "invalid value for stdin"
  let ival := (trig.getD "max_files_stdin" (.int 0)).integerValue
  if ival < 0 then
    throw "max_files_stdin must be >= 0"
  let stdout_name := unpackString trig "stdout"
  let stderr_name := unpackString trig "stderr"
  let (stdout_name, stdout_flags) ←
    match parse_redirection windows "stdout" stdout_name with
    | .ok n f => pure (n, f)
    | .error e => throw e
  let (stderr_name, stderr_flags) ←
    match parse_redirection windows "stderr" stderr_name with
    | .ok n f => pure (n, f)
    | .error e => throw e
  -- w_envp_set of WATCHMAN_ROOT / WATCHMAN_SOCK / WATCHMAN_TRIGGER: external
  pure { definition := trig
         triggername := triggername
         command := command
         append_files := append_files
         stdin_style := stdin_style
         max_files_stdin := ival
         stdout_name := stdout_name
         stderr_name := stderr_name
         stdout_flags := stdout_flags
         stderr_flags := stderr_flags }

/-! ## Legacy trigger construction (`build_legacy_trigger`, trigger.cpp:140-187)

`w_query_parse_legacy` is the external legacy pattern-list parser; its
outcome is passed in as `legacyParse`: `none` models a parse failure, and
`some (next_arg, expr)` a success that consumed arguments up to (but not
including) index `next_arg` and produced the query document `expr`. -/

/-- The command-collection loop (trigger.cpp:174-183): each remaining
argument must be a string; `i` is the 0-based index used in the error
message. -/
def collectCommandArgs : List Json → Nat → Except String (List Json)
  | [], _ => .ok []
  | j :: rest, i =>
    if j.isString then
      match collectCommandArgs rest (i + 1) with
      | .ok tail => .ok (j :: tail)
      | .error e => .error e
    else
      .error ("expected argument " ++ toString i ++ " to be a string")

/-- `build_legacy_trigger(root, client, args)` (trigger.cpp:140-187). -/
def build_legacy_trigger (args : List Json) (legacyParse : Option (Nat × Json)) :
    Except String Json :=
  let trig : Json :=
    .obj [("name", (args.get? 2).getD .null),
          ("append_files", .bool true),
          ("stdin", .arr [.str "name", .str "exists", .str "new",
                          .str "size", .str "mode"])]
  match legacyParse with
  | none => .error "invalid rule spec"
  | some (next_arg, expr) =>
    -- json_object_set(trig, "expression", expr.get_default("expression"));
    -- setting a null json_ref is a jansson no-op
    let trig :=
      match expr.get? "expression" with
      | some v => trig.setKey "expression" v
      | none => trig
    if next_arg ≥ args.length then
      .error "no command was specified"
    else
      match collectCommandArgs (args.drop next_arg) 0 with
      | .error e => .error e
      | .ok command => .ok (trig.setKey "command" (.arr command))

/-! ## Root trigger-table state and the command handlers

`cmd_trigger` (trigger.cpp:365-450) and `cmd_trigger_delete`
(trigger.cpp:68-113) mutate the root's trigger table under its write lock
and conditionally persist state (`w_state_save`).  Each handler is embedded
as a pure function producing the new state, the response, the save flag and
an event trace in program order. -/

/-- One entry of the root's trigger table: the definition document and the
execution-thread state of the owning `watchman_trigger_command`. -/
structure TriggerInstance where
  definition : Json
  thread : TrigThread

/-- The slice of `watchman_root` state the trigger handlers touch: the
trigger table (`triggers`, keyed by trigger name) and the logical tick
counter (`inner.ticks`). -/
structure RootTriggerState where
  triggers : List (String × TriggerInstance)
  ticks : Nat

/-- Events recorded in program order by the embedded handlers. -/
inductive TrigEvent where
  | lockAcquire : TrigEvent
  | lockRelease : TrigEvent
  | stopJoin (name : String) : TrigEvent
  | threadStart (name : String) : TrigEvent
  | tickAdvance : TrigEvent
  | stateSave : TrigEvent
deriving Repr, DecidableEq

/-- Trigger-table lookup by name (`map->find(tname)`). -/
def lookupTrigger : List (String × TriggerInstance) → String → Option TriggerInstance
  | [], _ => none
  | (k, v) :: rest, name => if k == name then some v else lookupTrigger rest name

/-- In-place replacement of the instance bound to `name`
(`old = std::move(cmd)` through the `map[...]` reference). -/
def replaceTrigger : List (String × TriggerInstance) → String → TriggerInstance →
    List (String × TriggerInstance)
  | [], name, inst => [(name, inst)]
  | (k, v) :: rest, name, inst =>
      if k == name then (k, inst) :: rest
      else (k, v) :: replaceTrigger rest name inst

/-- `map->erase(it)` for the entry bound to `name`. -/
def eraseTrigger : List (String × TriggerInstance) → String →
    List (String × TriggerInstance)
  | [], _ => []
  | (k, v) :: rest, name =>
      if k == name then rest else (k, v) :: eraseTrigger rest name

/-- The table entry created for a freshly started command
(`cmd->start(root); old = std::move(cmd)`). -/
def startedInstance (cmd : TriggerCmdDef) : TriggerInstance :=
  ⟨cmd.definition, TrigThread.initial.start⟩

/-- `disposition` strings reported by `cmd_trigger`. -/
inductive Disposition where
  | already_defined : Disposition
  | replaced : Disposition
  | created : Disposition
deriving Repr, DecidableEq

/-- Outcome of `cmd_trigger`: new root state, response (`triggerid` and
disposition, or an error message), whether `w_state_save` ran, and the
event trace. -/
structure TriggerAddOutcome where
  state : RootTriggerState
  response : Except String (String × Disposition)
  saved : Bool
  trace : List TrigEvent

/-- An error response from `cmd_trigger` before any table access. -/
def triggerErrorOutcome (st : RootTriggerState) (msg : String) : TriggerAddOutcome :=
  { state := st, response := .error msg, saved := false, trace := [] }

/-- The table-update core of `cmd_trigger` (trigger.cpp:401-440): under the
triggers write lock, compare against any existing definition with
`json_equal`; identical definitions are left untouched with disposition
`already_defined` and `need_save = false`; otherwise the old instance (if
any) is stopped (joining its thread) before the new one is started, and
after the lock is dropped the root tick is advanced and state is saved. -/
def cmd_trigger_core (st : RootTriggerState) (cmd : TriggerCmdDef) :
    TriggerAddOutcome :=
  match lookupTrigger st.triggers cmd.triggername with
  | some oldInst =>
    if jsonEqual cmd.definition oldInst.definition then
      -- Same definition: we don't and shouldn't touch things
      { state := st,
        response := .ok (cmd.triggername, .already_defined),
        saved := false,
        trace := [.lockAcquire, .lockRelease] }
    else
      { state := { triggers := replaceTrigger st.triggers cmd.triggername
                     (startedInstance cmd),
                   ticks := st.ticks + 1 },
        response := .ok (cmd.triggername, .replaced),
        saved := true,
        trace := [.lockAcquire, .stopJoin cmd.triggername,
                  .threadStart cmd.triggername, .lockRelease,
                  .tickAdvance, .stateSave] }
  | none =>
      { state := { triggers := replaceTrigger st.triggers cmd.triggername
                     (startedInstance cmd),
                   ticks := st.ticks + 1 },
        response := .ok (cmd.triggername, .created),
        saved := true,
        trace := [.lockAcquire, .threadStart cmd.triggername, .lockRelease,
                  .tickAdvance, .stateSave] }

/-- `cmd_trigger` (trigger.cpp:365-450).  `legacyParse` is the outcome of
the external `w_query_parse_legacy` used only on the legacy (string) form;
root resolution has already succeeded (it is handled by the dispatch
layer, outside this core). -/
def cmd_trigger (windows : Bool) (legacyParse : Option (Nat × Json))
    (st : RootTriggerState) (args : List Json) : TriggerAddOutcome :=
  if args.length < 3 then
    triggerErrorOutcome st "not enough arguments"
  else
    let trig0 := (args.get? 2).getD .null
    let trigE : Except String Json :=
      if trig0.isString then build_legacy_trigger args legacyParse
      else .ok trig0
    match trigE with
    | .error e => triggerErrorOutcome st e
    | .ok trig =>
      match mkTriggerCommand windows trig with
      | .error e => triggerErrorOutcome st e
      | .ok cmd => cmd_trigger_core st cmd

/-- Outcome of `cmd_trigger_delete`: new state, response (the `deleted`
flag and the `trigger` name echoed back, or an error), save flag, trace. -/
structure TriggerDelOutcome where
  state : RootTriggerState
  response : Except String (Bool × Json)
  saved : Bool
  trace : List TrigEvent

def triggerDelErrorOutcome (st : RootTriggerState) (msg : String) :
    TriggerDelOutcome :=
  { state := st, response := .error msg, saved := false, trace := [] }

/-- `cmd_trigger_delete` (trigger.cpp:68-113): validate the argument count
and name; under the triggers write lock, look the name up — if absent the
response carries `deleted:false` and nothing is saved; if present the
instance is stopped (its thread joined) and erased, and `w_state_save`
runs after the lock is dropped. -/
def cmd_trigger_delete (st : RootTriggerState) (args : List Json) :
    TriggerDelOutcome :=
  if args.length ≠ 3 then
    triggerDelErrorOutcome st "wrong number of arguments"
  else
    let jname := (args.get? 2).getD .null
    match jname with
    | .str tname =>
      match lookupTrigger st.triggers tname with
      | none =>
        { state := st,
          response := .ok (false, .str tname),
          saved := false,
          trace := [.lockAcquire, .lockRelease] }
      | some _ =>
        { state := { st with triggers := eraseTrigger st.triggers tname },
          response := .ok (true, .str tname),
          saved := true,
          trace := [.lockAcquire, .stopJoin tname, .lockRelease, .stateSave] }
    | _ => triggerDelErrorOutcome st "expected 2nd parameter to be trigger name"

/-! ## WinWatcher read-changes thread (win32.cpp:100-248)

The loop body is embedded as a step function on an explicit thread state,
driven per iteration by an `IterInput` describing what the environment did:
whether a newly initiated `ReadDirectoryChangesW` call succeeded, and which
of the two waited handles (overlapped-read completion vs. the ping/shutdown
event) `WaitForMultipleObjects` reported, together with the
`GetOverlappedResult` outcome for a completed read. -/

def NETWORK_BUF_SIZE : Nat := 64 * 1024

/-- winerror.h values for the two specially handled failure codes. -/
def ERROR_INVALID_PARAMETER : Nat := 87
def ERROR_NOTIFY_ENUM_DIR : Nat := 1022

/-- `GetOverlappedResult` outcome for a completed overlapped read. -/
inductive ReadOutcome where
  | success : ReadOutcome
  | failure (err : Nat) : ReadOutcome
deriving Repr, DecidableEq

/-- Which signal `WaitForMultipleObjects` reported. -/
inductive WaitStatus where
  | readCompleted (r : ReadOutcome) : WaitStatus
  | pinged : WaitStatus
  | timeout : WaitStatus
  | unexpected : WaitStatus
deriving Repr, DecidableEq

/-- Environment behaviour for one loop iteration. -/
structure IterInput where
  issueOk : Bool
  wait : WaitStatus
deriving Repr, DecidableEq

/-- The mutable state of `readChangesThread` relevant to error handling:
the buffer size, the `initiate_read` flag, whether the loop is still
running, whether the root was cancelled, and counters for buffer shrinks
and scheduled recrawls. -/
structure ReadThreadState where
  size : Nat
  initiate_read : Bool
  running : Bool
  cancelled : Bool
  shrinkCount : Nat
  recrawlCount : Nat
deriving Repr, DecidableEq

/-- Thread state right after the successful first read and init-done signal
(win32.cpp:142-144): no read to initiate, loop about to run. -/
def readThreadLoopEntry (size0 : Nat) : ReadThreadState :=
  { size := size0, initiate_read := false, running := true, cancelled := false,
    shrinkCount := 0, recrawlCount := 0 }

/-- One iteration of the `while (!root->inner.cancelled)` loop
(win32.cpp:145-245). -/
def readChangesStep (st : ReadThreadState) (inp : IterInput) : ReadThreadState :=
  if !st.running || st.cancelled then st
  else if st.initiate_read && !inp.issueOk then
    -- ReadDirectoryChangesW failed: cancel watch, break
    { st with cancelled := true, running := false }
  else
    -- a successfully issued read clears initiate_read before the wait
    match inp.wait with
    | .readCompleted .success =>
      -- decode records, enqueue survivors, re-arm the read
      { st with initiate_read := true }
    | .readCompleted (.failure err) =>
      if err == ERROR_INVALID_PARAMETER && st.size > NETWORK_BUF_SIZE then
        -- possible network location: downsize and retry the read
        { st with size := NETWORK_BUF_SIZE, initiate_read := true,
                  shrinkCount := st.shrinkCount + 1 }
      else if err == ERROR_NOTIFY_ENUM_DIR then
        -- schedule a recrawl; the loop continues
        { st with initiate_read := false,
                  recrawlCount := st.recrawlCount + 1 }
      else
        -- cancel the watch, break
        { st with initiate_read := false, cancelled := true,
                  running := false }
    | .pinged => { st with initiate_read := false, running := false }
    | .timeout => { st with initiate_read := false }
    | .unexpected => { st with initiate_read := false, running := false }

/-- The whole loop over a finite schedule of environment behaviours. -/
def readChangesRun (size0 : Nat) (inputs : List IterInput) : ReadThreadState :=
  inputs.foldl readChangesStep (readThreadLoopEntry size0)

/-! ## The start()/readChangesThread handshake (win32.cpp:112-142, 250-306) -/

/-- Events of the thread start handshake. -/
inductive WinStartEvent where
  | issueFirstRead (ok : Bool) : WinStartEvent
  | initDoneSignal : WinStartEvent
  | cancelRoot : WinStartEvent
deriving Repr, DecidableEq

/-- The initialization phase of `readChangesThread` (win32.cpp:112-142):
issue the first `ReadDirectoryChangesW`; on failure cancel the root and
return; on success — and only then — signal init-done on the condition
variable. -/
def readThreadInitTrace (firstReadOk : Bool) : List WinStartEvent :=
  if firstReadOk then [.issueFirstRead true, .initDoneSignal]
  else [.issueFirstRead false, .cancelRoot]

/-- Outcome of `WinWatcher::start`. -/
structure WinStartOutcome where
  trace : List WinStartEvent
  success : Bool
  rootCancelled : Bool
deriving Repr, DecidableEq

/-- `WinWatcher::start` (win32.cpp:250-306): spawn `readChangesThread`,
wait up to 10 seconds on the condition variable, and report failure on
timeout (cancelling the root) or when the root has recorded a failure.
Modelled from the spec: `watchman_root::cancel` is not under src/; per the
spec ("timeout or signaled root failure is reported as a startup failure",
section 4.1) a cancel performed by the read thread is visible to `start`
as `root->failure_reason`, so a failed first read yields a failed start. -/
def WinWatcher_start (firstReadOk : Bool) (timedOut : Bool) : WinStartOutcome :=
  let threadTrace := readThreadInitTrace firstReadOk
  if timedOut then
    { trace := threadTrace, success := false, rootCancelled := true }
  else if !firstReadOk then
    { trace := threadTrace, success := false, rootCancelled := true }
  else
    { trace := threadTrace, success := true, rootCancelled := false }

/-- Scans a handshake trace from the beginning: `false` iff an
`initDoneSignal` occurs before any successful first-read issue. -/
def signalOnlyAfterSuccessfulIssue : List WinStartEvent → Bool
  | [] => true
  | .initDoneSignal :: _ => false
  | .issueFirstRead true :: _ => true
  | _ :: rest => signalOnlyAfterSuccessfulIssue rest

/-! ## VCS ignore configuration (vcs.cpp:7-57) -/

/-- Modelled from the spec: `IgnoreSet` itself is not under src/ — spec 4.3:
"`IgnoreSet.add(path, isVcsSubtree)` registers a prefix; `isIgnored(path)`
and `isIgnoreDir(path)` support the two filtering policies".  Registered
directories are kept with their VCS (full-subtree) flag, and
`isIgnoreDir` is membership of the registered-directory set. -/
structure IgnoreSet where
  dirs : List (String × Bool)

def IgnoreSet.isIgnoreDir (s : IgnoreSet) (p : String) : Bool :=
  s.dirs.any (fun q => q.1 == p)

def IgnoreSet.add (s : IgnoreSet) (p : String) (isVcsIgnore : Bool) : IgnoreSet :=
  ⟨s.dirs ++ [(p, isVcsIgnore)]⟩

/-- `w_string::pathCat` for root + name. -/
def pathCat (a b : String) : String := a ++ "/" ++ b

/-- The slice of `watchman_root` touched by `applyIgnoreVCSConfiguration`:
the root path, the ignore set, and the consistency-cookie directory
(`cookies.cookieDir()` / `cookies.setCookieDir`). -/
structure VcsRootState where
  root_path : String
  ignore : IgnoreSet
  cookieDir : String

/-- `config_get_ignore_vcs` (vcs.cpp:7-20): a present non-array value is
rejected (null return); an absent value defaults to `.git`, `.svn`,
`.hg`. -/
def config_get_ignore_vcs (cfgIgnoreVcs : Option Json) : Option Json :=
  match cfgIgnoreVcs with
  | some j => if j.isArray then some j else none
  | none => some (.arr [.str ".git", .str ".svn", .str ".hg"])

/-- The loop of `applyIgnoreVCSConfiguration` (vcs.cpp:31-56).  Each entry
must be a string; already fully ignored directories are skipped; otherwise
the directory is registered as a VCS ignore and, if the cookie directory is
still the root path itself and the directory exists on disk as a directory
(`w_lstat` + `S_ISDIR`, abstracted as the `isDir` oracle), it becomes the
cookie directory.  The C loop index is a `uint8_t`; this list traversal
coincides with it for arrays of fewer than 256 entries (the default has
three). -/
def applyIgnoreVcsLoop (isDir : String → Bool) (st : VcsRootState) :
    List Json → Except String VcsRootState
  | [] => .ok st
  | jignore :: rest =>
    match jignore with
    | .str s =>
      let fullname := pathCat st.root_path s
      if st.ignore.isIgnoreDir fullname then
        applyIgnoreVcsLoop isDir st rest
      else
        let st1 : VcsRootState := { st with ignore := st.ignore.add fullname true }
        let st2 : VcsRootState :=
          if st1.cookieDir == st1.root_path && isDir fullname then
            { st1 with cookieDir := fullname }
          else st1
        applyIgnoreVcsLoop isDir st2 rest
    | _ => .error "ignore_vcs must be an array of strings"

/-- `watchman_root::applyIgnoreVCSConfiguration` (vcs.cpp:22-57); `.error`
models the thrown `std::runtime_error`.  (`config_get_ignore_vcs` only ever
returns arrays, so the fallback arm is unreachable.) -/
def applyIgnoreVCSConfiguration (isDir : String → Bool)
    (cfgIgnoreVcs : Option Json) (st : VcsRootState) :
    Except String VcsRootState :=
  match config_get_ignore_vcs cfgIgnoreVcs with
  | none => .error "ignore_vcs must be an array of strings"
  | some (.arr elems) => applyIgnoreVcsLoop isDir st elems
  | some _ => .error "ignore_vcs must be an array of strings"

/-! ## Theorems -/

/-- C3: `parse_redirection` on `">out.log"` yields the truncate flag set
(`O_CREAT|O_CLOEXEC|O_WRONLY|O_TRUNC`) and residual name `out.log` on every
platform; on `">>out.log"` it yields the append flag set and the same
residual name except on Windows, where it is a configuration error rather
than a silent downgrade; a name without a `>` is a configuration error;
an absent name succeeds with no flags set. -/
theorem parse_redirection_spec :
    (∀ w label, parse_redirection w label (some ">out.log") =
      .ok (some "out.log") (O_CREAT ||| O_CLOEXEC ||| O_WRONLY ||| O_TRUNC)) ∧
    (∀ label, parse_redirection false label (some ">>out.log") =
      .ok (some "out.log") (O_CREAT ||| O_CLOEXEC ||| O_WRONLY ||| O_APPEND)) ∧
    (∀ label, parse_redirection true label (some ">>out.log") =
      .error "Windows does not support O_APPEND") ∧
    (∀ w, parse_redirection w "stdout" (some "out.log") =
      .error "stdout: must be prefixed with either > or >>, got out.log") ∧
    (∀ w label, parse_redirection w label none = .ok none 0) := by
  refine ⟨fun w label => ?_, fun label => rfl, fun label => rfl,
          fun w => ?_, fun w label => rfl⟩
  · cases w <;> rfl
  · cases w <;> rfl

/-- C8: destroying a `watchman_trigger_command` whose execution thread was
started and not stopped hits the FATAL branch of the destructor; destroying
one whose thread was never started, or on which `stop()` has completed, does
not. -/
theorem trigger_destructor_fatal :
    (∀ t : TrigThread, t.stopFlag = false → destructorIsFatal t.start = true) ∧
    (∀ t : TrigThread, t.joinable = false → destructorIsFatal t = false) ∧
    (∀ t : TrigThread, destructorIsFatal t.stop = false) := by
  refine ⟨fun t h => ?_, fun t h => ?_, fun t => ?_⟩
  · simp [TrigThread.start, destructorIsFatal, h]
  · simp [destructorIsFatal, h]
  · simp [TrigThread.stop, destructorIsFatal]
    split <;> simp

/-- C8 witness: at the concrete lifecycle states — freshly constructed,
started, and stopped — the destructor fatality check evaluates as the
theorem states. -/
theorem trigger_destructor_fatal_witness :
    destructorIsFatal TrigThread.initial.start = true ∧
    destructorIsFatal TrigThread.initial = false ∧
    destructorIsFatal (TrigThread.initial.start.stop) = false :=
  ⟨trigger_destructor_fatal.1 TrigThread.initial rfl,
   trigger_destructor_fatal.2.1 TrigThread.initial rfl,
   trigger_destructor_fatal.2.2 TrigThread.initial.start⟩

/-- C2: `trigger-del` with a well-formed argument list: when the name is not
in the trigger table the response is `deleted:false`, nothing is saved and
the state is unchanged; when it is present the instance's thread is stopped
(`stop()` leaves it non-joinable), the entry is erased, the response is
`deleted:true` and a save occurs; a save occurs iff `deleted:true`. -/
theorem trigger_delete_semantics (st : RootTriggerState) (a0 a1 : Json)
    (name : String) :
    let out := cmd_trigger_delete st [a0, a1, .str name]
    (lookupTrigger st.triggers name = none →
      out.response = .ok (false, .str name) ∧ out.saved = false ∧
      out.state = st ∧ out.trace = [.lockAcquire, .lockRelease]) ∧
    (∀ inst, lookupTrigger st.triggers name = some inst →
      out.response = .ok (true, .str name) ∧ out.saved = true ∧
      out.state.triggers = eraseTrigger st.triggers name ∧
      out.state.ticks = st.ticks ∧
      (inst.thread.stop).joinable = false ∧
      out.trace = [.lockAcquire, .stopJoin name, .lockRelease, .stateSave]) ∧
    (out.saved = true ↔ out.response = .ok (true, .str name)) := by
  have harg : ([a0, a1, Json.str name].length ≠ 3) = False := by simp
  refine ⟨fun hnone => ?_, fun inst hsome => ?_, ?_⟩
  · simp [cmd_trigger_delete, Json.get?, hnone]
  · simp [cmd_trigger_delete, Json.get?, hsome, TrigThread.stop]
    split <;> simp_all
  · cases hl : lookupTrigger st.triggers name <;>
      simp [cmd_trigger_delete, Json.get?, hl]

/-- A concrete running trigger instance and a one-entry trigger table, used
to exercise the handler theorems on closed inputs. -/
def exThread : TrigThread := ⟨true, false⟩

def exInstance : TriggerInstance := ⟨.obj [("name", .str "t1")], exThread⟩

def exState : RootTriggerState := { triggers := [("t1", exInstance)], ticks := 7 }

/-- C2 witness: deleting the known trigger `t1` from the concrete one-entry
table reports `deleted:true`, saves, and empties the table. -/
theorem trigger_delete_semantics_witness :
    (cmd_trigger_delete exState [.str "trigger-del", .str "/root", .str "t1"]).saved = true ∧
    (cmd_trigger_delete exState [.str "trigger-del", .str "/root", .str "t1"]).response =
      .ok (true, .str "t1") ∧
    (cmd_trigger_delete exState [.str "trigger-del", .str "/root", .str "t1"]).state.triggers = [] := by
  have h := (trigger_delete_semantics exState (.str "trigger-del") (.str "/root") "t1").2.1
    exInstance rfl
  exact ⟨h.2.1, h.1, by rw [h.2.2.1]; rfl⟩

/-- C1: redefining a trigger whose name is already in the table: with a
`json_equal`-identical definition the handler reports `already_defined`,
leaves the state (table and ticks, hence the old instance's thread)
untouched, and neither saves nor advances the tick — the trace holds no
stop, start, tick or save event; with a differing definition the old
instance is stopped and joined before the new thread starts (the trace
orders `stopJoin` before `threadStart`), the disposition is `replaced`
(`created` when no prior trigger existed), the tick is advanced and a save
occurs. -/
theorem trigger_redefinition_policy (st : RootTriggerState) (cmd : TriggerCmdDef) :
    (∀ oldInst, lookupTrigger st.triggers cmd.triggername = some oldInst →
      (jsonEqual cmd.definition oldInst.definition = true →
        (cmd_trigger_core st cmd).response = .ok (cmd.triggername, .already_defined) ∧
        (cmd_trigger_core st cmd).saved = false ∧
        (cmd_trigger_core st cmd).state = st ∧
        (cmd_trigger_core st cmd).trace = [.lockAcquire, .lockRelease]) ∧
      (jsonEqual cmd.definition oldInst.definition = false →
        (cmd_trigger_core st cmd).response = .ok (cmd.triggername, .replaced) ∧
        (cmd_trigger_core st cmd).saved = true ∧
        (cmd_trigger_core st cmd).state.ticks = st.ticks + 1 ∧
        (cmd_trigger_core st cmd).trace =
          [.lockAcquire, .stopJoin cmd.triggername, .threadStart cmd.triggername,
           .lockRelease, .tickAdvance, .stateSave])) ∧
    (lookupTrigger st.triggers cmd.triggername = none →
      (cmd_trigger_core st cmd).response = .ok (cmd.triggername, .created) ∧
      (cmd_trigger_core st cmd).saved = true ∧
      (cmd_trigger_core st cmd).state.ticks = st.ticks + 1 ∧
      (cmd_trigger_core st cmd).trace =
        [.lockAcquire, .threadStart cmd.triggername, .lockRelease,
         .tickAdvance, .stateSave]) := by
  refine ⟨fun oldInst hsome => ⟨fun heq => ?_, fun hne => ?_⟩, fun hnone => ?_⟩
  · simp [cmd_trigger_core, hsome, heq]
  · simp [cmd_trigger_core, hsome, hne]
  · simp [cmd_trigger_core, hnone]

/-- A trigger definition naming `t1` with a different command than
`exInstance`'s definition, and the constructed command fields for it. -/
def exCmd : TriggerCmdDef :=
  { definition := .obj [("name", .str "t1"), ("command", .arr [.str "ls"])]
    triggername := "t1"
    command := .arr [.str "ls"]
    append_files := false
    stdin_style := input_dev_null
    max_files_stdin := 0
    stdout_name := none
    stderr_name := none
    stdout_flags := 0
    stderr_flags := 0 }

/-- C1 witness: redefining `t1` in the concrete table with a differing
definition reports `replaced`, saves, bumps the tick from 7 to 8, and the
trace joins the old thread before starting the new one; the identical-case
and created-case hypotheses are exercised by the theorem's other branches
via `exInstance`'s own definition. -/
theorem trigger_redefinition_policy_witness :
    (cmd_trigger_core exState exCmd).response = .ok ("t1", .replaced) ∧
    (cmd_trigger_core exState exCmd).saved = true ∧
    (cmd_trigger_core exState exCmd).state.ticks = 8 ∧
    (cmd_trigger_core exState exCmd).trace =
      [.lockAcquire, .stopJoin "t1", .threadStart "t1", .lockRelease,
       .tickAdvance, .stateSave] := by
  have h := ((trigger_redefinition_policy exState exCmd).1 exInstance rfl).2
    (by simp [exCmd, exInstance, jsonEqual])
  exact ⟨h.1, h.2.1, h.2.2.1, h.2.2.2⟩

/-- A successful command-collection run returns exactly its input list, and
every collected argument is a string. -/
theorem collectCommandArgs_ok {l : List Json} :
    ∀ {i : Nat} {l' : List Json}, collectCommandArgs l i = .ok l' →
      l' = l ∧ l.all Json.isString = true := by
  induction l with
  | nil =>
    intro i l' h
    simp only [collectCommandArgs] at h
    cases h
    simp
  | cons j rest ih =>
    intro i l' h
    by_cases hj : j.isString
    · simp only [collectCommandArgs, hj, if_true] at h
      cases hc : collectCommandArgs rest (i + 1) with
      | ok tail =>
        rw [hc] at h
        cases h
        obtain ⟨h1, h2⟩ := ih hc
        subst h1
        simp [hj, h2]
      | error e => rw [hc] at h; cases h
    · simp only [collectCommandArgs, hj] at h
      simp at h

/-- A command list holding any non-string argument is rejected. -/
theorem collectCommandArgs_err {l : List Json} :
    ∀ (i : Nat), l.all Json.isString = false →
      ∃ msg, collectCommandArgs l i = .error msg := by
  induction l with
  | nil => intro i h; simp at h
  | cons j rest ih =>
    intro i h
    by_cases hj : j.isString
    · simp only [List.all_cons, hj, Bool.true_and] at h
      obtain ⟨msg, hm⟩ := ih (i + 1) h
      exact ⟨msg, by simp [collectCommandArgs, hj, hm]⟩
    · refine ⟨"expected argument " ++ toString i ++ " to be a string", ?_⟩
      simp [collectCommandArgs, hj]

/-- C10: a legacy-form trigger whose pattern list parsed up to `next_arg`
builds a definition with `append_files` fixed to true and the stdin field
list fixed to `["name","exists","new","size","mode"]`; its command array is
exactly the arguments following the pattern list, all of which must be
strings (a non-string yields an error); when no arguments remain the
operation fails with "no command was specified". -/
theorem legacy_trigger_shape (args : List Json) (next_arg : Nat) (expr : Json) :
    (next_arg ≥ args.length →
      build_legacy_trigger args (some (next_arg, expr)) =
        .error "no command was specified") ∧
    (∀ trig, build_legacy_trigger args (some (next_arg, expr)) = .ok trig →
      trig.get? "append_files" = some (.bool true) ∧
      trig.get? "stdin" = some (.arr [.str "name", .str "exists", .str "new",
                                      .str "size", .str "mode"]) ∧
      trig.get? "command" = some (.arr (args.drop next_arg)) ∧
      (args.drop next_arg).all Json.isString = true ∧
      next_arg < args.length) ∧
    ((args.drop next_arg).all Json.isString = false →
      ∃ msg, build_legacy_trigger args (some (next_arg, expr)) = .error msg) := by
  refine ⟨fun hge => ?_, fun trig h => ?_, fun hall => ?_⟩
  · cases he : expr.get? "expression" <;>
      simp [build_legacy_trigger, he, hge]
  · by_cases hge : next_arg ≥ args.length
    · cases he : expr.get? "expression" <;>
        simp [build_legacy_trigger, he, hge] at h
    · cases hc : collectCommandArgs (args.drop next_arg) 0 with
      | error e =>
        cases he : expr.get? "expression" <;>
          simp [build_legacy_trigger, he, hge, hc] at h
      | ok command =>
        obtain ⟨h1, h2⟩ := collectCommandArgs_ok hc
        subst h1
        cases he : expr.get? "expression" <;>
          [skip; skip] <;>
          · simp [build_legacy_trigger, he, hge, hc] at h
            subst h
            refine ⟨?_, ?_, ?_, h2, by omega⟩ <;>
              simp [Json.setKey, Json.setField, Json.get?, Json.lookupField]
  · have hlt : next_arg < args.length := by
      by_contra hge
      push_neg at hge
      rw [List.drop_eq_nil_of_le hge] at hall
      simp at hall
    obtain ⟨msg, hm⟩ := collectCommandArgs_err (l := args.drop next_arg) 0 hall
    refine ⟨msg, ?_⟩
    cases he : expr.get? "expression" <;>
      simp [build_legacy_trigger, he, hm, Nat.not_le_of_lt hlt]

/-- A concrete legacy trigger invocation: `trigger /root tname *.c -- ls -l`,
whose pattern list parses up to argument index 5. -/
def exLegacyArgs : List Json :=
  [.str "trigger", .str "/root", .str "tname", .str "*.c", .str "--",
   .str "ls", .str "-l"]

/-- A concrete query document produced by the legacy pattern parse. -/
def exExpr : Json := .obj [("expression", .arr [.str "match", .str "*.c"])]

/-- The definition document built for the concrete legacy invocation. -/
def exLegacyTrig : Json :=
  (build_legacy_trigger exLegacyArgs (some (5, exExpr))).toOption.getD .null

/-- C10 witness: the concrete legacy invocation builds a definition with
`append_files` true, the fixed five-field stdin list, and command
`["ls","-l"]`. -/
theorem legacy_trigger_shape_witness :
    exLegacyTrig.get? "append_files" = some (.bool true) ∧
    exLegacyTrig.get? "stdin" = some (.arr [.str "name", .str "exists",
      .str "new", .str "size", .str "mode"]) ∧
    exLegacyTrig.get? "command" = some (.arr [.str "ls", .str "-l"]) := by
  have h := (legacy_trigger_shape exLegacyArgs 5 exExpr).2.1 exLegacyTrig rfl
  exact ⟨h.1, h.2.1, h.2.2.1.trans (by rfl)⟩

/-- Invariant giving "shrink at most once": after a shrink the buffer is at
the network-safe threshold, so the shrink guard (`size > NETWORK_BUF_SIZE`)
can never fire again. -/
def ShrinkInv (st : ReadThreadState) : Prop :=
  st.shrinkCount ≤ 1 ∧ (1 ≤ st.shrinkCount → st.size ≤ NETWORK_BUF_SIZE)

/-- Every step either leaves the shrink counter and buffer size unchanged,
or performs the one shrink: counter `+1`, size set to the threshold, and
the guard `size > NETWORK_BUF_SIZE` held beforehand. -/
theorem readChangesStep_shrink (st : ReadThreadState) (inp : IterInput) :
    ((readChangesStep st inp).shrinkCount = st.shrinkCount ∧
      (readChangesStep st inp).size = st.size) ∨
    ((readChangesStep st inp).shrinkCount = st.shrinkCount + 1 ∧
      (readChangesStep st inp).size = NETWORK_BUF_SIZE ∧
      st.size > NETWORK_BUF_SIZE) := by
  unfold readChangesStep
  repeat' split
  all_goals
    first
      | exact Or.inl ⟨rfl, rfl⟩
      | (rename_i hguard
         right
         simp only [Bool.and_eq_true, beq_iff_eq, decide_eq_true_eq] at hguard
         exact ⟨rfl, rfl, hguard.2⟩)

theorem shrinkInv_step (st : ReadThreadState) (inp : IterInput)
    (h : ShrinkInv st) : ShrinkInv (readChangesStep st inp) := by
  obtain ⟨h1, h2⟩ := h
  rcases readChangesStep_shrink st inp with ⟨ha, hb⟩ | ⟨ha, hb, hc⟩
  · exact ⟨by omega, fun hx => by rw [hb]; exact h2 (by omega)⟩
  · have hsc : st.shrinkCount = 0 := by
      rcases Nat.eq_zero_or_pos st.shrinkCount with h0 | hpos
      · exact h0
      · exact absurd hc (Nat.not_lt_of_le (h2 hpos))
    exact ⟨by omega, fun hx => by rw [hb]⟩

theorem shrinkInv_foldl (inputs : List IterInput) :
    ∀ st : ReadThreadState, ShrinkInv st →
      ShrinkInv (inputs.foldl readChangesStep st) := by
  induction inputs with
  | nil => intro st h; exact h
  | cons inp rest ih =>
    intro st h
    exact ih (readChangesStep st inp) (shrinkInv_step st inp h)

/-- C4: read-completion failure handling in `readChangesThread`.  A failure
with `ERROR_INVALID_PARAMETER` while the buffer exceeds the 64KiB
network-safe threshold shrinks the buffer to that threshold and re-arms the
read without cancelling; a failure with `ERROR_NOTIFY_ENUM_DIR` schedules a
recrawl and the loop continues; any other failure cancels the root's watch
and exits the loop.  Over any finite run of the loop, the shrink-and-retry
happens at most once. -/
theorem read_failure_handling :
    (∀ st : ReadThreadState, st.running = true → st.cancelled = false →
      st.size > NETWORK_BUF_SIZE →
      readChangesStep st ⟨true, .readCompleted (.failure ERROR_INVALID_PARAMETER)⟩ =
        { st with initiate_read := true, size := NETWORK_BUF_SIZE,
                  shrinkCount := st.shrinkCount + 1 }) ∧
    (∀ st : ReadThreadState, st.running = true → st.cancelled = false →
      readChangesStep st ⟨true, .readCompleted (.failure ERROR_NOTIFY_ENUM_DIR)⟩ =
        { st with initiate_read := false,
                  recrawlCount := st.recrawlCount + 1 }) ∧
    (∀ (st : ReadThreadState) (err : Nat), st.running = true →
      st.cancelled = false → err ≠ ERROR_NOTIFY_ENUM_DIR →
      ¬(err = ERROR_INVALID_PARAMETER ∧ st.size > NETWORK_BUF_SIZE) →
      readChangesStep st ⟨true, .readCompleted (.failure err)⟩ =
        { st with initiate_read := false, cancelled := true,
                  running := false }) ∧
    (∀ (size0 : Nat) (inputs : List IterInput),
      (readChangesRun size0 inputs).shrinkCount ≤ 1) := by
  refine ⟨fun st h1 h2 h3 => ?_, fun st h1 h2 => ?_,
          fun st err h1 h2 h3 h4 => ?_, fun size0 inputs => ?_⟩
  · simp [readChangesStep, h1, h2, h3, ERROR_INVALID_PARAMETER]
  · simp [readChangesStep, h1, h2, ERROR_INVALID_PARAMETER,
          ERROR_NOTIFY_ENUM_DIR]
  · have hguard : (err == ERROR_INVALID_PARAMETER &&
        decide (st.size > NETWORK_BUF_SIZE)) = false := by
      by_cases he : err = ERROR_INVALID_PARAMETER
      · subst he
        have hn : ¬st.size > NETWORK_BUF_SIZE := fun hgt => h4 ⟨rfl, hgt⟩
        simp [hn]
      · simp [he]
    have henum : (err == ERROR_NOTIFY_ENUM_DIR) = false := by
      simp [h3]
    simp [readChangesStep, h1, h2, hguard, henum]
  · exact (shrinkInv_foldl inputs (readThreadLoopEntry size0)
      ⟨by simp [readThreadLoopEntry], by simp [readThreadLoopEntry]⟩).1

/-- C4 witness: from a running loop state with an 8MiB buffer, an
`ERROR_INVALID_PARAMETER` completion failure shrinks the buffer to 64KiB and
re-arms the read, counting one shrink. -/
theorem read_failure_handling_witness :
    readChangesStep
        { size := 8388608, initiate_read := false, running := true,
          cancelled := false, shrinkCount := 0, recrawlCount := 0 }
        ⟨true, .readCompleted (.failure ERROR_INVALID_PARAMETER)⟩ =
      { size := NETWORK_BUF_SIZE, initiate_read := true, running := true,
        cancelled := false, shrinkCount := 1, recrawlCount := 0 } :=
  read_failure_handling.1
    { size := 8388608, initiate_read := false, running := true,
      cancelled := false, shrinkCount := 0, recrawlCount := 0 }
    rfl rfl (by decide)

/-- C5: the init-done signal is raised only after the first asynchronous
read was successfully issued — it appears in the handshake trace iff the
first read succeeded, and never before a successful issue; when the first
read fails the root is cancelled and `start` reports failure; a readiness
timeout also makes `start` report failure. -/
theorem start_handshake_ordering :
    (∀ firstReadOk timedOut : Bool,
      signalOnlyAfterSuccessfulIssue
        (WinWatcher_start firstReadOk timedOut).trace = true) ∧
    (∀ firstReadOk : Bool,
      (readThreadInitTrace firstReadOk).contains .initDoneSignal = firstReadOk) ∧
    (∀ timedOut : Bool,
      (WinWatcher_start false timedOut).success = false ∧
      (WinWatcher_start false timedOut).rootCancelled = true ∧
      (WinWatcher_start false timedOut).trace.contains .cancelRoot = true) ∧
    (∀ firstReadOk : Bool, (WinWatcher_start firstReadOk true).success = false) := by
  decide

/-- Lock-depth scan: true iff every `stopJoin` in the trace happens at
depth 0, i.e. with the trigger-table lock NOT held (the property C9
asserts). -/
def stopsOutsideLock : Nat → List TrigEvent → Bool
  | _, [] => true
  | d, .lockAcquire :: r => stopsOutsideLock (d + 1) r
  | d, .lockRelease :: r => stopsOutsideLock (d - 1) r
  | d, .stopJoin _ :: r => decide (d = 0) && stopsOutsideLock d r
  | d, _ :: r => stopsOutsideLock d r

/-- Lock-depth scan: true iff every `stopJoin` happens at positive depth,
i.e. with the trigger-table lock held. -/
def stopsUnderLock : Nat → List TrigEvent → Bool
  | _, [] => true
  | d, .lockAcquire :: r => stopsUnderLock (d + 1) r
  | d, .lockRelease :: r => stopsUnderLock (d - 1) r
  | d, .stopJoin _ :: r => decide (0 < d) && stopsUnderLock d r
  | d, _ :: r => stopsUnderLock d r

/-- Lock-depth scan: true iff every `tickAdvance` and `stateSave` happens
at depth 0 (outside the trigger-table lock). -/
def savesOutsideLock : Nat → List TrigEvent → Bool
  | _, [] => true
  | d, .lockAcquire :: r => savesOutsideLock (d + 1) r
  | d, .lockRelease :: r => savesOutsideLock (d - 1) r
  | d, .tickAdvance :: r => decide (d = 0) && savesOutsideLock d r
  | d, .stateSave :: r => decide (d = 0) && savesOutsideLock d r
  | d, _ :: r => savesOutsideLock d r

/-- C9 counterexample: deleting the known trigger `t1` stops and joins its
thread while the trigger-table write lock is held — the claim that the
trigger-table lock is not held while stopping and joining fails at this
concrete input. -/
theorem lock_across_stop_counterexample :
    stopsOutsideLock 0
      (cmd_trigger_delete exState
        [.str "trigger-del", .str "/root", .str "t1"]).trace = false := by
  rfl

/-- C9 amended: in both `trigger` and `trigger-del`, every stop-and-join of
a trigger thread happens WITH the trigger-table lock held (the stop occurs
inside the `wlock` scope), while the tick advance and the persistence save
happen only after the lock is released. -/
theorem trigger_lock_discipline (windows : Bool)
    (legacyParse : Option (Nat × Json)) (st : RootTriggerState)
    (args : List Json) :
    stopsUnderLock 0 (cmd_trigger windows legacyParse st args).trace = true ∧
    savesOutsideLock 0 (cmd_trigger windows legacyParse st args).trace = true ∧
    stopsUnderLock 0 (cmd_trigger_delete st args).trace = true ∧
    savesOutsideLock 0 (cmd_trigger_delete st args).trace = true := by
  refine ⟨?_, ?_, ?_, ?_⟩ <;>
    · simp only [cmd_trigger, cmd_trigger_core, cmd_trigger_delete,
        triggerErrorOutcome, triggerDelErrorOutcome]
      repeat' split
      all_goals rfl

/-- A VCS-ignore list holding any non-string entry makes the configuration
loop throw the ignore_vcs type error, whatever state it runs from. -/
theorem applyIgnoreVcsLoop_err (isDir : String → Bool) :
    ∀ (elems : List Json) (st : VcsRootState),
      elems.all Json.isString = false →
      applyIgnoreVcsLoop isDir st elems =
        .error "ignore_vcs must be an array of strings" := by
  intro elems
  induction elems with
  | nil => intro st h; simp at h
  | cons j rest ih =>
    intro st h
    cases j with
    | str s =>
      have hr : rest.all Json.isString = false := by
        simpa [Json.isString] using h
      cases hig : st.ignore.isIgnoreDir (pathCat st.root_path s) <;>
        · simp only [applyIgnoreVcsLoop, hig]
          exact ih _ hr
    | null => rfl
    | bool b => rfl
    | int n => rfl
    | arr xs => rfl
    | obj fields => rfl

/-- C7: an invalid trigger definition (the constructor reports an error:
invalid/missing name, empty or non-array command, bad stdin value, negative
max_files_stdin, or bad redirection syntax) makes `cmd_trigger` answer with
that error and perform no mutation at all: the state (table and ticks) is
returned unchanged, nothing is saved, and the trace is empty (no lock, no
thread start, no tick, no save).  Each of the five invalidity classes is
exhibited.  Likewise a non-array `ignore_vcs` value, or an array holding a
non-string, makes `applyIgnoreVCSConfiguration` throw the configuration
error. -/
theorem config_errors_no_mutation :
    (∀ (windows : Bool) (lp : Option (Nat × Json)) (st : RootTriggerState)
        (a0 a1 trig : Json) (e : String), trig.isString = false →
      mkTriggerCommand windows trig = .error e →
      cmd_trigger windows lp st [a0, a1, trig] =
        { state := st, response := .error e, saved := false, trace := [] }) ∧
    (mkTriggerCommand false (.obj [("command", .arr [.str "ls"])]) =
      .error "invalid or missing name") ∧
    (mkTriggerCommand false (.obj [("name", .str "t")]) =
      .error "invalid command array") ∧
    (mkTriggerCommand false (.obj [("name", .str "t"), ("command", .arr [])]) =
      .error "invalid command array") ∧
    (mkTriggerCommand false (.obj [("name", .str "t"),
        ("command", .arr [.str "ls"]), ("stdin", .str "bogus")]) =
      .error "invalid stdin value bogus") ∧
    (mkTriggerCommand false (.obj [("name", .str "t"),
        ("command", .arr [.str "ls"]), ("max_files_stdin", .int (-1))]) =
      .error "max_files_stdin must be >= 0") ∧
    (mkTriggerCommand false (.obj [("name", .str "t"),
        ("command", .arr [.str "ls"]), ("stdout", .str "out.log")]) =
      .error "stdout: must be prefixed with either > or >>, got out.log") ∧
    (∀ (isDir : String → Bool) (st : VcsRootState) (j : Json),
      j.isArray = false →
      applyIgnoreVCSConfiguration isDir (some j) st =
        .error "ignore_vcs must be an array of strings") ∧
    (∀ (isDir : String → Bool) (st : VcsRootState) (elems : List Json),
      elems.all Json.isString = false →
      applyIgnoreVCSConfiguration isDir (some (.arr elems)) st =
        .error "ignore_vcs must be an array of strings") := by
  refine ⟨fun windows lp st a0 a1 trig e htrig hmk => ?_, rfl, rfl, rfl, rfl,
          rfl, rfl, fun isDir st j hj => ?_, fun isDir st elems hall => ?_⟩
  · simp [cmd_trigger, htrig, hmk, triggerErrorOutcome]
  · cases j <;> simp_all [applyIgnoreVCSConfiguration, config_get_ignore_vcs,
      Json.isArray]
  · simpa [applyIgnoreVCSConfiguration, config_get_ignore_vcs, Json.isArray]
      using applyIgnoreVcsLoop_err isDir elems st hall

/-- C7 witness: a definition without a name is rejected with "invalid or
missing name" and `cmd_trigger` leaves the concrete root state untouched,
with an empty trace and no save. -/
theorem config_errors_no_mutation_witness :
    cmd_trigger false none exState
        [.str "trigger", .str "/root", .obj [("command", .arr [.str "ls"])]] =
      { state := exState, response := .error "invalid or missing name",
        saved := false, trace := [] } :=
  config_errors_no_mutation.1 false none exState (.str "trigger")
    (.str "/root") (.obj [("command", .arr [.str "ls"])])
    "invalid or missing name" rfl rfl

/-- Adding a directory extends the registered set: membership afterwards is
membership before, or equality with the added path. -/
theorem IgnoreSet.isIgnoreDir_add (s : IgnoreSet) (p q : String) (b : Bool) :
    (s.add p b).isIgnoreDir q = (s.isIgnoreDir q || (p == q)) := by
  simp [IgnoreSet.add, IgnoreSet.isIgnoreDir]

/-- One string step of the VCS-ignore loop, with the state update written
as a single record. -/
theorem applyIgnoreVcsLoop_cons_str (isDir : String → Bool)
    (st : VcsRootState) (nm : String) (rest : List Json) :
    applyIgnoreVcsLoop isDir st (.str nm :: rest) =
      (if st.ignore.isIgnoreDir (pathCat st.root_path nm) then
        applyIgnoreVcsLoop isDir st rest
      else
        applyIgnoreVcsLoop isDir
          { root_path := st.root_path,
            ignore := st.ignore.add (pathCat st.root_path nm) true,
            cookieDir :=
              if st.cookieDir == st.root_path && isDir (pathCat st.root_path nm)
              then pathCat st.root_path nm else st.cookieDir }
          rest) := by
  by_cases hig : st.ignore.isIgnoreDir (pathCat st.root_path nm)
  · simp [applyIgnoreVcsLoop, hig]
  · by_cases hck :
      (st.cookieDir == st.root_path && isDir (pathCat st.root_path nm)) = true
    · simp [applyIgnoreVcsLoop, hig, hck]
    · simp [applyIgnoreVcsLoop, hig, hck]

/-- C6: with `ignore_vcs` unconfigured, applying the VCS ignore
configuration registers exactly the not-already-ignored directories among
`root/.git`, `root/.svn`, `root/.hg` as full-subtree (VCS) ignores, in that
order; and the cookie directory becomes the first of those registered
directories that exists on disk as a directory — but only when the root had
not already designated a cookie directory other than the root path itself. -/
theorem vcs_default_ignores (isDir : String → Bool) (st : VcsRootState) :
    applyIgnoreVCSConfiguration isDir none st =
      .ok { root_path := st.root_path,
            ignore := ⟨st.ignore.dirs ++
              (([pathCat st.root_path ".git", pathCat st.root_path ".svn",
                 pathCat st.root_path ".hg"].filter
                  (fun p => !st.ignore.isIgnoreDir p)).map (fun p => (p, true)))⟩,
            cookieDir :=
              if st.cookieDir == st.root_path then
                (((([pathCat st.root_path ".git", pathCat st.root_path ".svn",
                     pathCat st.root_path ".hg"].filter
                      (fun p => !st.ignore.isIgnoreDir p)).filter
                       isDir).head?).getD st.cookieDir)
              else st.cookieDir } := by
  have hgs : (pathCat st.root_path ".git" == pathCat st.root_path ".svn") = false := by
    rw [beq_eq_false_iff_ne]
    intro hx
    rw [String.ext_iff] at hx
    simp [pathCat, String.data_append] at hx
  have hgh : (pathCat st.root_path ".git" == pathCat st.root_path ".hg") = false := by
    rw [beq_eq_false_iff_ne]
    intro hx
    rw [String.ext_iff] at hx
    simp [pathCat, String.data_append] at hx
  have hsh : (pathCat st.root_path ".svn" == pathCat st.root_path ".hg") = false := by
    rw [beq_eq_false_iff_ne]
    intro hx
    rw [String.ext_iff] at hx
    simp [pathCat, String.data_append] at hx
  have hgr : (pathCat st.root_path ".git" == st.root_path) = false := by
    rw [beq_eq_false_iff_ne]
    intro hx
    have hl := congrArg String.length hx
    simp [pathCat, String.length_append] at hl
    have h1 : "/".length = 1 := rfl
    have h2 : ".git".length = 4 := rfl
    omega
  have hsr : (pathCat st.root_path ".svn" == st.root_path) = false := by
    rw [beq_eq_false_iff_ne]
    intro hx
    have hl := congrArg String.length hx
    simp [pathCat, String.length_append] at hl
    have h1 : "/".length = 1 := rfl
    have h2 : ".svn".length = 4 := rfl
    omega
  simp only [applyIgnoreVCSConfiguration, config_get_ignore_vcs,
    applyIgnoreVcsLoop_cons_str, applyIgnoreVcsLoop,
    IgnoreSet.isIgnoreDir_add, hgs, hgh, hsh, Bool.or_false]
  by_cases hg : st.ignore.isIgnoreDir (pathCat st.root_path ".git") <;>
  by_cases hs : st.ignore.isIgnoreDir (pathCat st.root_path ".svn") <;>
  by_cases hh : st.ignore.isIgnoreDir (pathCat st.root_path ".hg") <;>
  by_cases hcd : (st.cookieDir == st.root_path) = true <;>
  by_cases dg : isDir (pathCat st.root_path ".git") = true <;>
  by_cases ds : isDir (pathCat st.root_path ".svn") = true <;>
  by_cases dh : isDir (pathCat st.root_path ".hg") = true <;>
    (simp [hg, hs, hh, hcd, dg, ds, dh, hgr, hsr, hgs, hgh, hsh,
       IgnoreSet.isIgnoreDir_add, List.filter_cons, List.filter_nil] <;>
     simp [IgnoreSet.add])
